import Mathlib

/-!
# ginerr: mapping Go errors to HTTP error responses

A shallow embedding of `ginerr.go` (package `ginerr`).

The package has four operations:

* `NewHighLevelError` and the method `HighLevelError.Error`,
* `ExtractError`, which calls the Go standard library function `errors.As`,
* `GinErrorHandlerMiddleware`, a gin middleware,
* `AbortAndError`, a helper that records an error on a gin context.

The package itself is embedded function by function.  The two libraries it
calls are embedded as far as the package observes them:

* `errors.As` (Go standard library) is embedded for the two target types that
  occur: `*HighLevelError` (in `ExtractError`) and `**gin.Error` (inside
  gin, in `Context.Error`, which calls `errors.As` in current gin).
* of `gin.Context` the error list, the handler index and the response writer
  are kept; of the response writer its status, whether the header has been
  written, the `Content-Type` header and the body written so far.

A Go panic is the result `none`.  Error values are pure and finite: the
methods `As` and `Unwrap` of an error have no effect besides what `As` does
to its target, and following `Unwrap` ends.
-/

namespace Ginerr

/-! ## The data model -/

/-- The struct `HighLevelError`: a status code and a message. -/
structure HighLevelError where
  Code : Int
  Message : String
deriving DecidableEq, Repr

/-- The method `Error` of `HighLevelError`: `return err.Message`. -/
def HighLevelError.Error (err : HighLevelError) : String :=
  err.Message

/-- The constructor function: `return HighLevelError{Code: code, Message: message}`. -/
def NewHighLevelError (code : Int) (message : String) : HighLevelError :=
  { Code := code, Message := message }

/-! ### Status constants of `net/http` used by the package -/

def StatusBadRequest : Int := 400
def StatusUnauthorized : Int := 401
def StatusForbidden : Int := 403
def StatusNotFound : Int := 404
def StatusConflict : Int := 409
def StatusTooManyRequests : Int := 429
def StatusInternalServerError : Int := 500
def StatusNotImplemented : Int := 501
def StatusBadGateway : Int := 502
def StatusServiceUnavailable : Int := 503
def StatusGatewayTimeout : Int := 504
def StatusNoContent : Int := 204
def StatusNotModified : Int := 304

/-! ### The default errors -/

def DefaultInternalError : HighLevelError :=
  NewHighLevelError StatusInternalServerError "internal server error"
def BadRequest : HighLevelError :=
  NewHighLevelError StatusBadRequest "missed parameter, incorrect or malformed data"
def NotFound : HighLevelError :=
  NewHighLevelError StatusNotFound "not found"
def Unauthorized : HighLevelError :=
  NewHighLevelError StatusUnauthorized "unauthorized"
def Forbidden : HighLevelError :=
  NewHighLevelError StatusForbidden "forbidden"
def Conflict : HighLevelError :=
  NewHighLevelError StatusConflict "conflict"
def TooManyRequests : HighLevelError :=
  NewHighLevelError StatusTooManyRequests "too many requests"
def InternalServerError : HighLevelError :=
  NewHighLevelError StatusInternalServerError "internal server error"
def NotImplemented : HighLevelError :=
  NewHighLevelError StatusNotImplemented "not implemented"
def ServiceUnavailable : HighLevelError :=
  NewHighLevelError StatusServiceUnavailable "service unavailable"
def GatewayTimeout : HighLevelError :=
  NewHighLevelError StatusGatewayTimeout "gateway timeout"
def BadGateway : HighLevelError :=
  NewHighLevelError StatusBadGateway "bad gateway"
def ProxyError : HighLevelError :=
  NewHighLevelError StatusBadGateway "proxy error"
def UnknownError : HighLevelError :=
  NewHighLevelError StatusInternalServerError "unknown error"

/-- The fourteen package-level variables of the `var ( ... )` block, in source order. -/
def namedDefaults : List HighLevelError :=
  [DefaultInternalError, BadRequest, NotFound, Unauthorized, Forbidden, Conflict,
   TooManyRequests, InternalServerError, NotImplemented, ServiceUnavailable,
   GatewayTimeout, BadGateway, ProxyError, UnknownError]

/-- The data-model invariant of the specification, as a predicate: the code is
an HTTP status code (three digits, 100 to 599) and the message is not empty. -/
def wellFormed (h : HighLevelError) : Prop :=
  (100 ≤ h.Code ∧ h.Code ≤ 599) ∧ h.Message ≠ ""

instance (h : HighLevelError) : Decidable (wellFormed h) := by
  unfold wellFormed; exact inferInstance

/-! ## Go error values

A value of the interface type `error` is described by what `errors.As` can
observe of it: its dynamic type as far as the two target types are concerned,
its optional method `As(any) bool`, and its optional method `Unwrap`, which
returns either one error or a slice of errors.  Error values are finite
trees: `Unwrap` is a pure function of the value. -/

/-- A method `As(target any) bool`, by what it does when `target` is a
`*HighLevelError`: from the value the target holds at the call it gives the
returned boolean and the value the target holds afterwards.  What the same
method does with a target of type `**gin.Error` is kept in a `GinAsTable`. -/
abbrev AsMethod := HighLevelError → Bool × HighLevelError

/-- Values of the Go interface type `error`. -/
inductive GoError where
  /-- The nil interface value. -/
  | nil
  /-- A value of dynamic type `HighLevelError`; it has neither `As` nor `Unwrap`. -/
  | highLevel (h : HighLevelError)
  /-- A value of dynamic type `*HighLevelError`, a pointer to the given value. -/
  | highLevelPtr (h : HighLevelError)
  /-- A value of dynamic type `*gin.Error` with fields `Err`, `Type`, `Meta`;
  its method `Unwrap` returns `Err`, and it has no method `As`. -/
  | ginError (err : GoError) (errType : Nat) (errMeta : Option String)
  /-- A value of another type without `Unwrap`, such as `errors.New(text)`. -/
  | leaf (text : String) (asMethod : Option AsMethod)
  /-- A value of another type with `Unwrap() error`, such as
  `fmt.Errorf("...: %w", inner)`; `inner` is what `Unwrap` returns. -/
  | wrap (text : String) (asMethod : Option AsMethod) (inner : GoError)
  /-- A value of another type with `Unwrap() []error`, such as `errors.Join`;
  `inner` is the slice that `Unwrap` returns. -/
  | multi (text : String) (asMethod : Option AsMethod) (inner : List GoError)

/-- The struct `gin.Error`; the list `Context.Errors` holds pointers to such
structs.  `Type` is the `ErrorType` bit mask, `Meta` is the attached value. -/
structure GinError where
  Err : GoError
  ErrType : Nat
  Meta : Option String

/-- A `*gin.Error` seen as a value of the interface type `error`. -/
def GinError.toError (g : GinError) : GoError :=
  .ginError g.Err g.ErrType g.Meta

/-- The outcome of a method `As` called with a target of type `**gin.Error`:
it returned false and the target holds the given pointer (nil is `none`), or it
returned true having stored the given `*gin.Error` in the target.  A method
that returns true has set the target, as `errors.As` asks of it, and the
pointer it stored is not nil. -/
inductive GinAsResult where
  | declined (target : Option GinError)
  | accepted (stored : GinError)

/-- What the methods `As` of the error types do with a target of type
`**gin.Error`: from the receiver and the pointer the target holds at the call,
the outcome.  The table is used only for a receiver whose type has a method
`As`.  The `*gin.Error` stored can itself hold errors, which is why this part
of a method `As` is not a field of the error value. -/
abbrev GinAsTable := GoError → Option GinError → GinAsResult

/-- The table of a program in which every method `As` returns false for a
target of type `**gin.Error` and leaves it alone. -/
def declineAll : GinAsTable :=
  fun _ target => .declined target

/-- The method `As` of the dynamic type of an error value, if it has one. -/
def GoError.asMethod? : GoError → Option AsMethod
  | .leaf _ m => m
  | .wrap _ m _ => m
  | .multi _ m _ => m
  | _ => none

/-- The zero value `HighLevelError{}`. -/
def zeroHighLevelError : HighLevelError :=
  { Code := 0, Message := "" }

/-! ## `errors.As` with a target of type `*HighLevelError` -/

/-- The step `if x, ok := err.(interface{ As(any) bool }); ok && x.As(target)`
of `errors.as`: the boolean is whether the step returns true, the second
component is the target afterwards. -/
def callAs (m : Option AsMethod) (target : HighLevelError) : Bool × HighLevelError :=
  match m with
  | none => (false, target)
  | some f => f target

mutual
/-- The loop of the unexported `errors.as`, for a target of type
`*HighLevelError`.  One iteration: if the dynamic type of `err` is assignable
to `HighLevelError`, the target is set and the result is true; otherwise the
method `As` of `err` is tried; otherwise the walk goes on into what `Unwrap`
returns, and stops with false at nil. -/
def errorsAsLoop : GoError → HighLevelError → Bool × HighLevelError
  | .nil, target => (false, target)
  | .highLevel h, _ => (true, h)
  | .highLevelPtr _, target => (false, target)
  | .ginError err _ _, target => errorsAsLoop err target
  | .leaf _ m, target =>
    let r := callAs m target
    if r.1 then r else (false, r.2)
  | .wrap _ m inner, target =>
    let r := callAs m target
    if r.1 then r else errorsAsLoop inner r.2
  | .multi _ m inner, target =>
    let r := callAs m target
    if r.1 then r else errorsAsRange inner r.2
/-- The `for _, err := range x.Unwrap()` of `errors.as`: nil entries are
skipped, the first entry for which the recursive call is true ends the loop. -/
def errorsAsRange : List GoError → HighLevelError → Bool × HighLevelError
  | [], target => (false, target)
  | e :: es, target =>
    let r := errorsAsLoop e target
    if r.1 then r else errorsAsRange es r.2
end

/-- The call `errors.As(err, &target)` with `target` of type `HighLevelError`:
false at once for a nil `err`, otherwise the walk. -/
def errorsAs (err : GoError) (target : HighLevelError) : Bool × HighLevelError :=
  match err with
  | .nil => (false, target)
  | e => errorsAsLoop e target

/-- The function `ExtractError`. -/
def ExtractError (err : GoError) : HighLevelError :=
  let highLevel := zeroHighLevelError
  let r := errorsAs err highLevel
  if !r.1 then DefaultInternalError else r.2

/-! ## The wrap chain of an error

The errors that the standard walk of `errors.Is` and `errors.As` can meet, in
the order it meets them: depth first, and left to right through a slice. -/

mutual
/-- The errors of the tree below `err`, `err` first, in walk order. -/
def chain : GoError → List GoError
  | .nil => []
  | .highLevel h => [.highLevel h]
  | .highLevelPtr h => [.highLevelPtr h]
  | .ginError err ty m => .ginError err ty m :: chain err
  | .leaf s m => [.leaf s m]
  | .wrap s m inner => .wrap s m inner :: chain inner
  | .multi s m inner => .multi s m inner :: chainRange inner
/-- The chains of the entries of a slice, one after the other. -/
def chainRange : List GoError → List GoError
  | [] => []
  | e :: es => chain e ++ chainRange es
end

/-- Whether an error value has dynamic type `HighLevelError`. -/
def GoError.isHighLevel : GoError → Bool
  | .highLevel _ => true
  | _ => false

/-- The `HighLevelError` values of the wrap chain, in walk order. -/
def highLevels (err : GoError) : List HighLevelError :=
  (chain err).filterMap fun n =>
    match n with
    | .highLevel h => some h
    | _ => none

/-- An error of the chain declines: its method `As`, if it has one, returns
false whatever the target holds. -/
def declines (n : GoError) : Prop :=
  ∀ m, n.asMethod? = some m → ∀ target, (m target).1 = false

/-- An error of the chain is quiet: it is not a `HighLevelError` value and it declines. -/
def quiet (n : GoError) : Prop :=
  n.isHighLevel = false ∧ declines n

/-- The `*gin.Error` an error of the chain is, if its dynamic type is that. -/
def GoError.ginError? : GoError → Option GinError
  | .ginError err ty m => some { Err := err, ErrType := ty, Meta := m }
  | _ => none

/-- What one error of the chain does to the target on its own: the type test
and the method `As`, without the unwrapping. -/
def matchOne (n : GoError) (target : HighLevelError) : Bool × HighLevelError :=
  match n with
  | .highLevel h => (true, h)
  | e => callAs e.asMethod? target

/-- The walk over a chain that has been laid out as a list. -/
def scan : List GoError → HighLevelError → Bool × HighLevelError
  | [], target => (false, target)
  | n :: ns, target =>
    let r := matchOne n target
    if r.1 then r else scan ns r.2

/-! ## gin: recording errors, response writer and context -/

/-- The constant `ErrorTypePrivate ErrorType = 1 << 0`. -/
def ErrorTypePrivate : Nat := 1

/-- The step `if x, ok := err.(interface{ As(any) bool }); ok && x.As(target)`
of `errors.as` for a target of type `**gin.Error`. -/
def callGinAs (ginAs : GinAsTable) (err : GoError) (target : Option GinError) : GinAsResult :=
  match err.asMethod? with
  | none => .declined target
  | some _ => ginAs err target

mutual
/-- The call `errors.As(err, &parsedError)` with `parsedError` of type
`*gin.Error`: the loop of `errors.as`.  One iteration: if the dynamic type of
`err` is `*gin.Error`, it is stored in the target and the result is true;
otherwise the method `As` of `err` is tried; otherwise the walk goes on into
what `Unwrap` returns, and stops with false at nil. -/
def errorsAsGinError (ginAs : GinAsTable) : GoError → Option GinError → GinAsResult
  | .nil, target => .declined target
  | .highLevel _, target => .declined target
  | .highLevelPtr _, target => .declined target
  | .ginError err ty m, _ => .accepted { Err := err, ErrType := ty, Meta := m }
  | .leaf s m, target => callGinAs ginAs (.leaf s m) target
  | .wrap s m inner, target =>
    match callGinAs ginAs (.wrap s m inner) target with
    | .accepted g => .accepted g
    | .declined t => errorsAsGinError ginAs inner t
  | .multi s m inner, target =>
    match callGinAs ginAs (.multi s m inner) target with
    | .accepted g => .accepted g
    | .declined t => errorsAsGinErrorRange ginAs inner t
/-- The range loop of the same call: nil entries are skipped, the first entry
for which the recursive call is true ends the loop. -/
def errorsAsGinErrorRange (ginAs : GinAsTable) : List GoError → Option GinError → GinAsResult
  | [], target => .declined target
  | e :: es, target =>
    match errorsAsGinError ginAs e target with
    | .accepted g => .accepted g
    | .declined t => errorsAsGinErrorRange ginAs es t
end

/-- An error of the chain declines a target of type `**gin.Error`: its method
`As`, if it has one, returns false for it whatever the target holds. -/
def ginDeclines (ginAs : GinAsTable) (n : GoError) : Prop :=
  ∀ target, ∃ t, callGinAs ginAs n target = .declined t

/-- The walk for a `**gin.Error` target over a chain laid out as a list. -/
def scanGin (ginAs : GinAsTable) : List GoError → Option GinError → GinAsResult
  | [], target => .declined target
  | n :: ns, target =>
    match n.ginError? with
    | some g => .accepted g
    | none =>
      match callGinAs ginAs n target with
      | .accepted g => .accepted g
      | .declined t => scanGin ginAs ns t

/-- What `gin.H` holds in this package: an integer or a string. -/
inductive JSONValue where
  | int (n : Int)
  | str (s : String)
deriving DecidableEq, Repr

/-- The type `gin.H`, a map from field names to values, as the list of its fields. -/
abbrev H := List (String × JSONValue)

/-- One write to the response body: the JSON encoding of an object, or other bytes. -/
inductive Chunk where
  | json (obj : H)
  | raw (data : String)
deriving DecidableEq, Repr

/-- The response writer of gin: `status` and `written` are the fields `status`
and `size != noWritten` of `responseWriter`, `contentType` is the
`Content-Type` entry of the header map, `body` is what has been written. -/
structure ResponseWriter where
  status : Int
  written : Bool
  contentType : Option String
  body : List Chunk
deriving DecidableEq, Repr

/-- The part of `gin.Context` the package touches. -/
structure Context where
  Errors : List GinError
  index : Int
  Writer : ResponseWriter

/-- The constant `abortIndex int8 = math.MaxInt8 >> 1`. -/
def abortIndex : Int := 63

/-- The method `Context.Abort`: `c.index = abortIndex`. -/
def Context.Abort (c : Context) : Context :=
  { c with index := abortIndex }

/-- The method `Context.IsAborted`: `c.index >= abortIndex`. -/
def Context.IsAborted (c : Context) : Bool :=
  decide (c.index ≥ abortIndex)

/-- The method `errorMsgs.Last`: the last entry, or nil for an empty list. -/
def Last (a : List GinError) : Option GinError :=
  a.getLast?

/-- The variable `parsedError` of `Context.Error`, declared nil: what
`errors.As(err, &parsedError)` stored in it when it returned true, and
otherwise a new private `*gin.Error` around `err`. -/
def parsedError (ginAs : GinAsTable) (err : GoError) : GinError :=
  match errorsAsGinError ginAs err none with
  | .accepted g => g
  | .declined _ => { Err := err, ErrType := ErrorTypePrivate, Meta := none }

/-- The method `Context.Error` of current gin: it panics on nil, and
otherwise appends `parsedError` to `c.Errors`.  The argument `ginAs` is what
the methods `As` of the error types do with the target of its `errors.As`. -/
def Context.Error (ginAs : GinAsTable) (c : Context) (err : GoError) : Option Context :=
  match err with
  | .nil => none
  | e => some { c with Errors := c.Errors ++ [parsedError ginAs e] }

/-- The method `responseWriter.WriteHeader` of gin: a positive code that
differs from the current status replaces it, unless the header is written. -/
def ResponseWriter.WriteHeader (w : ResponseWriter) (code : Int) : ResponseWriter :=
  if code > 0 ∧ w.status ≠ code then
    if w.written then w else { w with status := code }
  else w

/-- The check `checkWriteHeaderCode` of `net/http`, which panics outside 100 to 999. -/
def checkWriteHeaderCode (code : Int) : Bool :=
  !(decide (code < 100) || decide (code > 999))

/-- The method `responseWriter.WriteHeaderNow` of gin: if nothing is written
yet, the status goes to the `WriteHeader` of `net/http`. -/
def ResponseWriter.WriteHeaderNow (w : ResponseWriter) : Option ResponseWriter :=
  if !w.written then
    if checkWriteHeaderCode w.status then some { w with written := true } else none
  else some w

/-- The method `responseWriter.Write` of gin: the header is written first if
it has not been, then the bytes go to the `http.ResponseWriter` underneath,
which is taken to accept them. -/
def ResponseWriter.Write (w : ResponseWriter) (data : Chunk) : Option ResponseWriter :=
  match w.WriteHeaderNow with
  | none => none
  | some w1 => some { w1 with body := w1.body ++ [data] }

/-- The function `bodyAllowedForStatus` of gin. -/
def bodyAllowedForStatus (status : Int) : Bool :=
  if status ≥ 100 ∧ status ≤ 199 then false
  else if status = StatusNoContent then false
  else if status = StatusNotModified then false
  else true

/-- The content type of `render.JSON`. -/
def jsonContentType : String := "application/json; charset=utf-8"

/-- The function `writeContentType` of `gin/render`: set only when absent. -/
def writeContentType (w : ResponseWriter) (value : String) : ResponseWriter :=
  match w.contentType with
  | none => { w with contentType := some value }
  | some _ => w

/-- The function `WriteJSON` of `gin/render`.  Encoding a map of an integer
and a string cannot fail. -/
def WriteJSON (w : ResponseWriter) (obj : H) : Option ResponseWriter :=
  (writeContentType w jsonContentType).Write (.json obj)

/-- The method `Context.Render` with a `render.JSON`. -/
def Context.Render (c : Context) (code : Int) (obj : H) : Option Context :=
  let c1 : Context := { c with Writer := c.Writer.WriteHeader code }
  if !bodyAllowedForStatus code then
    match (writeContentType c1.Writer jsonContentType).WriteHeaderNow with
    | none => none
    | some w => some { c1 with Writer := w }
  else
    match WriteJSON c1.Writer obj with
    | none => none
    | some w => some { c1 with Writer := w }

/-- The method `Context.JSON`. -/
def Context.JSON (c : Context) (code : Int) (obj : H) : Option Context :=
  c.Render code obj

/-- The method `Context.AbortWithStatusJSON`: `c.Abort()` then `c.JSON(code, jsonObj)`. -/
def Context.AbortWithStatusJSON (c : Context) (code : Int) (jsonObj : H) : Option Context :=
  c.Abort.JSON code jsonObj

/-! ## The middleware and the recorder -/

/-- The function `GinErrorHandlerMiddleware`.  The call `context.Next()` runs
the rest of the handler chain; its effect on the context is the argument
`next`. -/
def GinErrorHandlerMiddleware (next : Context → Option Context) (context : Context) :
    Option Context :=
  match next context with
  | none => none
  | some context =>
    match Last context.Errors with
    | none => some context.Abort
    | some err =>
      let highLevel := ExtractError err.toError
      let message : H := [("status", .int highLevel.Code), ("error", .str highLevel.Message)]
      context.AbortWithStatusJSON highLevel.Code message

/-- The function `AbortAndError`: `c.Error(err)` then `c.Abort()`.  The
argument `ginAs` is the one of `Context.Error`. -/
def AbortAndError (ginAs : GinAsTable) (c : Context) (err : GoError) : Option Context :=
  match c.Error ginAs err with
  | none => none
  | some c1 => some c1.Abort

/-- A context on which nothing has been recorded or written: the status is
the `defaultStatus` of gin, 200. -/
def freshContext : Context :=
  { Errors := [], index := 0,
    Writer := { status := 200, written := false, contentType := none, body := [] } }

/-! ## The walk of `errors.As` is a scan of the wrap chain -/

theorem scan_append (l1 l2 : List GoError) (t : HighLevelError) :
    scan (l1 ++ l2) t = if (scan l1 t).1 then scan l1 t else scan l2 (scan l1 t).2 := by
  induction l1 generalizing t with
  | nil => simp [scan]
  | cons n ns ih =>
    simp only [List.cons_append, scan]
    by_cases h : (matchOne n t).1 = true
    · simp [h]
    · simp [h, ih]

mutual
theorem errorsAsLoop_eq_scan : ∀ (e : GoError) (t : HighLevelError),
    errorsAsLoop e t = scan (chain e) t
  | .nil, t => by simp [errorsAsLoop, chain, scan]
  | .highLevel h, t => by simp [errorsAsLoop, chain, scan, matchOne]
  | .highLevelPtr h, t => by
    simp [errorsAsLoop, chain, scan, matchOne, GoError.asMethod?, callAs]
  | .ginError err ty m, t => by
    simp [errorsAsLoop, chain, scan, matchOne, GoError.asMethod?, callAs,
      errorsAsLoop_eq_scan err t]
  | .leaf s m, t => by
    simp only [errorsAsLoop, chain, scan, matchOne, GoError.asMethod?]
  | .wrap s m inner, t => by
    simp only [errorsAsLoop, chain, scan, matchOne, GoError.asMethod?,
      errorsAsLoop_eq_scan inner]
  | .multi s m inner, t => by
    simp only [errorsAsLoop, chain, scan, matchOne, GoError.asMethod?,
      errorsAsRange_eq_scan inner]
theorem errorsAsRange_eq_scan : ∀ (es : List GoError) (t : HighLevelError),
    errorsAsRange es t = scan (chainRange es) t
  | [], t => by simp [errorsAsRange, chainRange, scan]
  | e :: es, t => by
    simp only [errorsAsRange, chainRange, scan_append, errorsAsLoop_eq_scan e,
      errorsAsRange_eq_scan es]
end

theorem errorsAs_eq_scan (e : GoError) (t : HighLevelError) :
    errorsAs e t = scan (chain e) t := by
  cases e <;> simp [errorsAs, errorsAsLoop_eq_scan, chain, scan]

theorem ExtractError_eq_scan (e : GoError) :
    ExtractError e =
      if (scan (chain e) zeroHighLevelError).1 then (scan (chain e) zeroHighLevelError).2
      else DefaultInternalError := by
  simp only [ExtractError, errorsAs_eq_scan]
  by_cases h : (scan (chain e) zeroHighLevelError).1 = true <;> simp [h]

theorem matchOne_quiet (n : GoError) (hq : quiet n) (t : HighLevelError) :
    (matchOne n t).1 = false := by
  obtain ⟨hhl, hdecl⟩ := hq
  cases n with
  | highLevel h => simp [GoError.isHighLevel] at hhl
  | nil => simp [matchOne, GoError.asMethod?, callAs]
  | highLevelPtr h => simp [matchOne, GoError.asMethod?, callAs]
  | ginError err ty m => simp [matchOne, GoError.asMethod?, callAs]
  | leaf s m =>
    cases m with
    | none => simp [matchOne, GoError.asMethod?, callAs]
    | some f => simpa [matchOne, GoError.asMethod?, callAs] using hdecl f rfl t
  | wrap s m inner =>
    cases m with
    | none => simp [matchOne, GoError.asMethod?, callAs]
    | some f => simpa [matchOne, GoError.asMethod?, callAs] using hdecl f rfl t
  | multi s m inner =>
    cases m with
    | none => simp [matchOne, GoError.asMethod?, callAs]
    | some f => simpa [matchOne, GoError.asMethod?, callAs] using hdecl f rfl t

theorem scan_quiet (l : List GoError) (hq : ∀ n ∈ l, quiet n) (t : HighLevelError) :
    (scan l t).1 = false := by
  induction l generalizing t with
  | nil => simp [scan]
  | cons n ns ih =>
    have h1 := matchOne_quiet n (hq n (List.mem_cons_self n ns)) t
    simp only [scan, h1]
    exact ih (fun k hk => hq k (List.mem_cons_of_mem n hk)) _

theorem scan_quiet_then_highLevel (pre post : List GoError) (d : HighLevelError)
    (hq : ∀ n ∈ pre, quiet n) (t : HighLevelError) :
    scan (pre ++ GoError.highLevel d :: post) t = (true, d) := by
  rw [scan_append]
  simp [scan_quiet pre hq t, scan, matchOne]

/-- The first part of a chain, up to its first `HighLevelError` value. -/
theorem chain_split_first (l : List GoError) (h : HighLevelError) (rest : List HighLevelError)
    (hf : (l.filterMap fun n => match n with
            | GoError.highLevel k => some k
            | _ => none) = h :: rest) :
    ∃ post, l = l.takeWhile (fun n => !n.isHighLevel) ++ GoError.highLevel h :: post := by
  induction l with
  | nil => simp at hf
  | cons n ns ih =>
    cases n with
    | highLevel k =>
      simp only [List.filterMap_cons, List.cons.injEq] at hf
      exact ⟨ns, by simp [List.takeWhile, GoError.isHighLevel, hf.1]⟩
    | nil =>
      obtain ⟨post, hp⟩ := ih (by simpa [List.filterMap_cons] using hf)
      exact ⟨post, by simp [List.takeWhile, GoError.isHighLevel]; exact hp⟩
    | highLevelPtr k =>
      obtain ⟨post, hp⟩ := ih (by simpa [List.filterMap_cons] using hf)
      exact ⟨post, by simp [List.takeWhile, GoError.isHighLevel]; exact hp⟩
    | ginError err ty m =>
      obtain ⟨post, hp⟩ := ih (by simpa [List.filterMap_cons] using hf)
      exact ⟨post, by simp [List.takeWhile, GoError.isHighLevel]; exact hp⟩
    | leaf s m =>
      obtain ⟨post, hp⟩ := ih (by simpa [List.filterMap_cons] using hf)
      exact ⟨post, by simp [List.takeWhile, GoError.isHighLevel]; exact hp⟩
    | wrap s m inner =>
      obtain ⟨post, hp⟩ := ih (by simpa [List.filterMap_cons] using hf)
      exact ⟨post, by simp [List.takeWhile, GoError.isHighLevel]; exact hp⟩
    | multi s m inner =>
      obtain ⟨post, hp⟩ := ih (by simpa [List.filterMap_cons] using hf)
      exact ⟨post, by simp [List.takeWhile, GoError.isHighLevel]; exact hp⟩

theorem takeWhile_not_highLevel (l : List GoError) :
    ∀ n ∈ l.takeWhile (fun n => !n.isHighLevel), n.isHighLevel = false := by
  intro n hn
  have := List.mem_takeWhile_imp hn
  simpa using this

theorem ExtractError_quiet (e : GoError) (hq : ∀ n ∈ chain e, quiet n) :
    ExtractError e = DefaultInternalError := by
  rw [ExtractError_eq_scan, scan_quiet (chain e) hq]
  simp

theorem quiet_of_no_highLevel (e : GoError) (hno : ∀ h, GoError.highLevel h ∉ chain e)
    (hdecl : ∀ n ∈ chain e, declines n) : ∀ n ∈ chain e, quiet n := by
  intro n hn
  refine ⟨?_, hdecl n hn⟩
  cases n with
  | highLevel h => exact absurd hn (hno h)
  | _ => rfl

theorem ExtractError_first_highLevel (e : GoError) (h : HighLevelError)
    (rest : List HighLevelError) (hfirst : highLevels e = h :: rest)
    (hdecl : ∀ n ∈ (chain e).takeWhile (fun n => !n.isHighLevel), declines n) :
    ExtractError e = h := by
  obtain ⟨post, hsplit⟩ := chain_split_first (chain e) h rest hfirst
  have hq : ∀ n ∈ (chain e).takeWhile (fun n => !n.isHighLevel), quiet n :=
    fun n hn => ⟨takeWhile_not_highLevel (chain e) n hn, hdecl n hn⟩
  rw [ExtractError_eq_scan, hsplit, scan_quiet_then_highLevel _ post h hq]
  simp


/-! ## The classifier `ExtractError` -/

/-- C1, as stated, fails: the chain of `errors.Join(NotFound, BadRequest)`
contains the named default `BadRequest`, and `ExtractError` returns `NotFound`. -/
theorem ExtractError_join_hides_later_default :
    BadRequest ∈ namedDefaults ∧
    GoError.highLevel BadRequest ∈
      chain (.multi "join" none [.highLevel NotFound, .highLevel BadRequest]) ∧
    ExtractError (.multi "join" none [.highLevel NotFound, .highLevel BadRequest]) = NotFound ∧
    NotFound ≠ BadRequest := by
  refine ⟨by decide, ?_, by decide, by decide⟩
  simp [chain, chainRange]

/-- C1, amended: `ExtractError` applied to a named default returns it, and
applied to an error whose wrap chain contains a `HighLevelError` value `d`
(any value, so each named default) it returns `d` with the same code and
message, provided every error the walk meets before `d` is quiet: none of them
is a `HighLevelError` value and none has a method `As` that accepts the target. -/
theorem ExtractError_returns_first_match :
    (∀ d ∈ namedDefaults, ExtractError (.highLevel d) = d) ∧
    (∀ (d : HighLevelError) (e : GoError) (pre post : List GoError),
      chain e = pre ++ GoError.highLevel d :: post → (∀ n ∈ pre, quiet n) →
      ExtractError e = d) := by
  constructor
  · intro d _
    simp [ExtractError_eq_scan, chain, scan, matchOne]
  · intro d e pre post hchain hq
    rw [ExtractError_eq_scan, hchain, scan_quiet_then_highLevel pre post d hq]
    simp

/-- An instance: `NotFound` below a `*gin.Error` below a wrapper is returned. -/
theorem ExtractError_returns_first_match_witness :
    chain (.wrap "load user" none (.ginError (.highLevel NotFound) 1 none)) =
      [.wrap "load user" none (.ginError (.highLevel NotFound) 1 none),
       .ginError (.highLevel NotFound) 1 none] ++ GoError.highLevel NotFound :: [] ∧
    ExtractError (.wrap "load user" none (.ginError (.highLevel NotFound) 1 none)) = NotFound :=
  ⟨by simp [chain],
   ExtractError_returns_first_match.2 NotFound _
     [.wrap "load user" none (.ginError (.highLevel NotFound) 1 none),
      .ginError (.highLevel NotFound) 1 none] [] (by simp [chain])
     (by simp [quiet, declines, GoError.isHighLevel, GoError.asMethod?])⟩

/-- C2, as stated, fails: an error whose type has a method `As` that sets the
target has no `HighLevelError` value in its chain, and `ExtractError` returns
what the method set, not the default. -/
theorem ExtractError_as_method_classifies :
    (∀ h, GoError.highLevel h ∉ chain (.leaf "domain error" (some fun _ => (true, NotFound)))) ∧
    ExtractError (.leaf "domain error" (some fun _ => (true, NotFound))) = NotFound ∧
    NotFound ≠ DefaultInternalError := by
  refine ⟨?_, by decide, by decide⟩
  simp [chain]

/-- C2, amended: for every error value whose wrap chain contains no
`HighLevelError` value and in whose chain no method `As` accepts the target,
`ExtractError` returns `DefaultInternalError`, that is code 500 and message
"internal server error"; this covers the nil error, a plain error and a
pointer to a `HighLevelError`. -/
theorem ExtractError_default_when_unclassified (e : GoError)
    (hno : ∀ h, GoError.highLevel h ∉ chain e) (hdecl : ∀ n ∈ chain e, declines n) :
    ExtractError e = DefaultInternalError ∧
    DefaultInternalError = { Code := 500, Message := "internal server error" } :=
  ⟨ExtractError_quiet e (quiet_of_no_highLevel e hno hdecl), by decide⟩

/-- Instances: a wrapper around a join of nil, a pointer to `NotFound` and an
error whose `As` declines; and the nil error. -/
theorem ExtractError_default_when_unclassified_witness :
    (ExtractError (.wrap "query failed" none
        (.multi "join" none
          [.nil, .highLevelPtr NotFound, .leaf "timeout" (some fun t => (false, t))])) =
      DefaultInternalError ∧
     DefaultInternalError = { Code := 500, Message := "internal server error" }) ∧
    ExtractError .nil = DefaultInternalError :=
  ⟨ExtractError_default_when_unclassified _
     (by simp [chain, chainRange])
     (by simp [chain, chainRange, declines, GoError.asMethod?]),
   (ExtractError_default_when_unclassified .nil (by simp [chain]) (by simp [chain])).1⟩

/-- C5, as stated, fails: the chain below holds the two `HighLevelError`
values `NotFound` and `BadRequest`; an error met before them has a method `As`
that sets the target to `Forbidden`, and that is what `ExtractError` returns. -/
theorem ExtractError_as_method_before_first :
    highLevels (.multi "join" none
      [.leaf "domain error" (some fun _ => (true, Forbidden)),
       .highLevel NotFound, .highLevel BadRequest]) = [NotFound, BadRequest] ∧
    ExtractError (.multi "join" none
      [.leaf "domain error" (some fun _ => (true, Forbidden)),
       .highLevel NotFound, .highLevel BadRequest]) = Forbidden ∧
    Forbidden ≠ NotFound := by
  decide

/-- C5, amended: when the wrap chain of an error contains `HighLevelError`
values (one or more), `ExtractError` returns the first of them in the order
of the standard walk, depth first and left to right, and never a later one,
provided no error the walk meets before that first value has a method `As`
that accepts the target. -/
theorem ExtractError_outermost_wins (e : GoError) (h : HighLevelError)
    (rest : List HighLevelError) (hfirst : highLevels e = h :: rest)
    (hdecl : ∀ n ∈ (chain e).takeWhile (fun n => !n.isHighLevel), declines n) :
    ExtractError e = h :=
  ExtractError_first_highLevel e h rest hfirst hdecl

/-- An instance: of `Conflict` and `NotFound` in a join, `Conflict` comes first. -/
theorem ExtractError_outermost_wins_witness :
    highLevels (.wrap "outer" none
      (.multi "join" none [.leaf "io" none, .highLevel Conflict, .highLevel NotFound])) =
      Conflict :: [NotFound] ∧
    ExtractError (.wrap "outer" none
      (.multi "join" none [.leaf "io" none, .highLevel Conflict, .highLevel NotFound])) =
      Conflict :=
  ⟨by decide,
   ExtractError_outermost_wins _ Conflict [NotFound] (by decide)
     (by simp [chain, chainRange, List.takeWhile, GoError.isHighLevel, declines,
           GoError.asMethod?])⟩

/-! ## The data model -/

/-- C7, as stated, fails: `NewHighLevelError(0, "")` has a code that is no
HTTP status code and an empty message, and `ExtractError` hands such a value
through unchanged. -/
theorem invariant_not_enforced :
    ¬ wellFormed (NewHighLevelError 0 "") ∧
    ExtractError (.highLevel (NewHighLevelError 0 "")) = NewHighLevelError 0 "" ∧
    ¬ wellFormed (ExtractError (.highLevel (NewHighLevelError 0 ""))) := by
  decide

/-- C7, amended: the public operations keep the invariant and do not
establish it.  `NewHighLevelError(code, message)` validates nothing: its
result has a valid HTTP status code and a non-empty message exactly when the
arguments are such; every named default has both; and `ExtractError(e)` has
both whenever every `HighLevelError` value in the chain of `e` has both and no
method `As` in the chain accepts the target. -/
theorem invariant_preserved :
    (∀ (code : Int) (message : String),
      wellFormed (NewHighLevelError code message) ↔
        ((100 ≤ code ∧ code ≤ 599) ∧ message ≠ "")) ∧
    (∀ d ∈ namedDefaults, wellFormed d) ∧
    (∀ e : GoError, (∀ n ∈ chain e, declines n) → (∀ h ∈ highLevels e, wellFormed h) →
      wellFormed (ExtractError e)) := by
  refine ⟨fun code message => Iff.rfl, by decide, ?_⟩
  intro e hdecl hwf
  cases hhl : highLevels e with
  | nil =>
    have hno : ∀ h, GoError.highLevel h ∉ chain e := by
      intro h hmem
      have : h ∈ highLevels e := by
        unfold highLevels
        rw [List.mem_filterMap]
        exact ⟨_, hmem, rfl⟩
      simp [hhl] at this
    rw [ExtractError_quiet e (quiet_of_no_highLevel e hno hdecl)]
    decide
  | cons h rest =>
    have hret : ExtractError e = h :=
      ExtractError_first_highLevel e h rest hhl
        (fun n hn => hdecl n (List.takeWhile_subset _ hn))
    rw [hret]
    exact hwf h (by simp [hhl])

/-- An instance: a wrapper around `NotFound`. -/
theorem invariant_preserved_witness :
    (∀ h ∈ highLevels (.wrap "lookup" none (.highLevel NotFound)), wellFormed h) ∧
    wellFormed (ExtractError (.wrap "lookup" none (.highLevel NotFound))) :=
  ⟨by decide,
   invariant_preserved.2.2 _
     (by simp [chain, declines, GoError.asMethod?])
     (by decide)⟩

/-- C8: the table of named defaults has the documented codes, the internal
default has the message "internal server error", and `BadGateway` and
`ProxyError` share the code 502 and differ in their messages, so they are
different values. -/
theorem namedDefaults_table :
    DefaultInternalError = { Code := 500, Message := "internal server error" } ∧
    BadRequest.Code = 400 ∧ NotFound.Code = 404 ∧ Unauthorized.Code = 401 ∧
    Forbidden.Code = 403 ∧ Conflict.Code = 409 ∧ TooManyRequests.Code = 429 ∧
    NotImplemented.Code = 501 ∧ ServiceUnavailable.Code = 503 ∧
    GatewayTimeout.Code = 504 ∧ BadGateway.Code = 502 ∧ ProxyError.Code = 502 ∧
    UnknownError.Code = 500 ∧ InternalServerError = DefaultInternalError ∧
    BadGateway.Message ≠ ProxyError.Message ∧ BadGateway ≠ ProxyError := by
  decide

/-- C10: for every `HighLevelError` the method `Error` returns the message
exactly, and two values with the same message and different codes have the
same `Error` string. -/
theorem Error_is_message :
    (∀ h : HighLevelError, h.Error = h.Message) ∧
    (∀ (code1 code2 : Int) (message : String),
      (NewHighLevelError code1 message).Error = (NewHighLevelError code2 message).Error) :=
  ⟨fun _ => rfl, fun _ _ _ => rfl⟩


/-! ## gin: what `Context.Error` records and what `Context.Render` writes -/

theorem scanGin_append (ginAs : GinAsTable) (l1 l2 : List GoError) (t : Option GinError) :
    scanGin ginAs (l1 ++ l2) t =
      match scanGin ginAs l1 t with
      | .accepted g => .accepted g
      | .declined t1 => scanGin ginAs l2 t1 := by
  induction l1 generalizing t with
  | nil => simp [scanGin]
  | cons n ns ih =>
    simp only [List.cons_append, scanGin]
    cases n.ginError? with
    | some g => rfl
    | none =>
      cases callGinAs ginAs n t with
      | accepted g => rfl
      | declined t1 => exact ih t1

mutual
theorem errorsAsGinError_eq_scanGin (ginAs : GinAsTable) : ∀ (e : GoError)
    (t : Option GinError), errorsAsGinError ginAs e t = scanGin ginAs (chain e) t
  | .nil, t => by simp [errorsAsGinError, chain, scanGin]
  | .highLevel h, t => by
    simp [errorsAsGinError, chain, scanGin, GoError.ginError?, callGinAs, GoError.asMethod?]
  | .highLevelPtr h, t => by
    simp [errorsAsGinError, chain, scanGin, GoError.ginError?, callGinAs, GoError.asMethod?]
  | .ginError err ty m, t => by
    simp [errorsAsGinError, chain, scanGin, GoError.ginError?]
  | .leaf s m, t => by
    simp only [errorsAsGinError, chain, scanGin, GoError.ginError?]
    cases callGinAs ginAs (.leaf s m) t <;> rfl
  | .wrap s m inner, t => by
    simp only [errorsAsGinError, chain, scanGin, GoError.ginError?]
    cases callGinAs ginAs (.wrap s m inner) t with
    | accepted g => rfl
    | declined t1 => exact errorsAsGinError_eq_scanGin ginAs inner t1
  | .multi s m inner, t => by
    simp only [errorsAsGinError, chain, scanGin, GoError.ginError?]
    cases callGinAs ginAs (.multi s m inner) t with
    | accepted g => rfl
    | declined t1 => exact errorsAsGinErrorRange_eq_scanGin ginAs inner t1
theorem errorsAsGinErrorRange_eq_scanGin (ginAs : GinAsTable) : ∀ (es : List GoError)
    (t : Option GinError), errorsAsGinErrorRange ginAs es t = scanGin ginAs (chainRange es) t
  | [], t => by simp [errorsAsGinErrorRange, chainRange, scanGin]
  | e :: es, t => by
    simp only [errorsAsGinErrorRange, chainRange, scanGin_append,
      errorsAsGinError_eq_scanGin ginAs e]
    cases scanGin ginAs (chain e) t with
    | accepted g => rfl
    | declined t1 => exact errorsAsGinErrorRange_eq_scanGin ginAs es t1
end

theorem scanGin_declined (ginAs : GinAsTable) (l : List GoError)
    (hdecl : ∀ n ∈ l, ginDeclines ginAs n) (t : Option GinError) :
    match l.findSome? GoError.ginError? with
    | some g => scanGin ginAs l t = .accepted g
    | none => ∃ t1, scanGin ginAs l t = .declined t1 := by
  induction l generalizing t with
  | nil => exact ⟨t, rfl⟩
  | cons n ns ih =>
    simp only [List.findSome?_cons, scanGin]
    cases hg : n.ginError? with
    | some g => rfl
    | none =>
      obtain ⟨t1, ht1⟩ := hdecl n (List.mem_cons_self n ns) t
      simp only [ht1]
      exact ih (fun k hk => hdecl k (List.mem_cons_of_mem n hk)) t1

theorem declineAll_ginDeclines (n : GoError) : ginDeclines declineAll n := by
  intro target
  refine ⟨target, ?_⟩
  unfold callGinAs declineAll
  cases n.asMethod? <;> rfl

theorem parsedError_of_declined (ginAs : GinAsTable) (e : GoError)
    (hdecl : ∀ n ∈ chain e, ginDeclines ginAs n) :
    parsedError ginAs e =
      ((chain e).findSome? GoError.ginError?).getD
        { Err := e, ErrType := ErrorTypePrivate, Meta := none } := by
  unfold parsedError
  rw [errorsAsGinError_eq_scanGin]
  have h := scanGin_declined ginAs (chain e) hdecl none
  cases hf : (chain e).findSome? GoError.ginError? with
  | some g =>
    rw [hf] at h
    simp only at h
    rw [h]
    rfl
  | none =>
    rw [hf] at h
    obtain ⟨t1, ht1⟩ := h
    rw [ht1]
    rfl

theorem Render_keeps_rest (c c2 : Context) (code : Int) (obj : H)
    (h : c.Render code obj = some c2) : c2.index = c.index ∧ c2.Errors = c.Errors := by
  unfold Context.Render at h
  simp only at h
  split at h
  · cases hw : (writeContentType (c.Writer.WriteHeader code) jsonContentType).WriteHeaderNow with
    | none => simp [hw] at h
    | some w =>
      simp only [hw, Option.some.injEq] at h
      subst h
      simp
  · cases hw : WriteJSON (c.Writer.WriteHeader code) obj with
    | none => simp [hw] at h
    | some w =>
      simp only [hw, Option.some.injEq] at h
      subst h
      simp

theorem Render_writer (c d : Context) (code : Int) (obj : H) (hw : c.Writer = d.Writer) :
    (c.Render code obj).map (fun r => r.Writer) = (d.Render code obj).map (fun r => r.Writer) := by
  unfold Context.Render
  simp only [hw]
  split
  · cases (writeContentType (d.Writer.WriteHeader code) jsonContentType).WriteHeaderNow <;> simp
  · cases WriteJSON (d.Writer.WriteHeader code) obj <;> simp

theorem Render_unwritten (c : Context) (code : Int) (obj : H)
    (hfresh : c.Writer.written = false) (hcode : checkWriteHeaderCode code = true)
    (hbody : bodyAllowedForStatus code = true) :
    c.Render code obj = some
      { Errors := c.Errors, index := c.index,
        Writer := { status := code, written := true,
                    contentType := some (c.Writer.contentType.getD jsonContentType),
                    body := c.Writer.body ++ [.json obj] } } := by
  obtain ⟨errs, idx, w⟩ := c
  obtain ⟨st, wr, ct, bd⟩ := w
  simp only at hfresh
  subst hfresh
  have hpos : code > 0 := by
    simp [checkWriteHeaderCode] at hcode
    omega
  by_cases hs : st = code
  · subst hs
    cases ct <;>
      simp [Context.Render, hbody, WriteJSON, writeContentType, ResponseWriter.Write,
        ResponseWriter.WriteHeaderNow, ResponseWriter.WriteHeader, hcode]
  · cases ct <;>
      simp [Context.Render, hbody, WriteJSON, writeContentType, ResponseWriter.Write,
        ResponseWriter.WriteHeaderNow, ResponseWriter.WriteHeader, hcode, hpos, hs]

theorem middleware_default_step (next : Context → Option Context) (c c1 : Context)
    (g : GinError) (hnext : next c = some c1) (hlast : Last c1.Errors = some g)
    (hq : ∀ n ∈ chain g.toError, quiet n) :
    GinErrorHandlerMiddleware next c =
      c1.AbortWithStatusJSON 500
        [("status", .int 500), ("error", .str "internal server error")] := by
  simp only [GinErrorHandlerMiddleware, hnext, hlast, ExtractError_quiet g.toError hq]
  rfl


/-! ## The responder `GinErrorHandlerMiddleware` -/

/-- C3, as stated, fails.  On a fresh response, recording
`NewHighLevelError(204, "no content")` sets the status 204 and writes no body,
because gin writes no body for that status; recording
`NewHighLevelError(0, "zero")` writes a body whose status field is 0 while the
HTTP status stays 200, because gin ignores a code that is not positive; when an
earlier handler has written a response with status 200, a recorded `NotFound`
leaves the status 200 and appends the object to the body; and recording
`NewHighLevelError(1000, "big")` ends in the panic of `net/http` on a status
code outside 100 to 999. -/
theorem middleware_status_or_body_not_written :
    (GinErrorHandlerMiddleware
        (fun c => AbortAndError declineAll c (.highLevel (NewHighLevelError 204 "no content")))
        freshContext).map (fun r => r.Writer) =
      some { status := 204, written := true, contentType := some jsonContentType, body := [] } ∧
    (GinErrorHandlerMiddleware
        (fun c => AbortAndError declineAll c (.highLevel (NewHighLevelError 0 "zero")))
        freshContext).map (fun r => r.Writer) =
      some { status := 200, written := true, contentType := some jsonContentType,
             body := [.json [("status", .int 0), ("error", .str "zero")]] } ∧
    (GinErrorHandlerMiddleware
        (fun c => AbortAndError declineAll c (.highLevel NotFound))
        { Errors := [], index := 0,
          Writer := { status := 200, written := true, contentType := some "text/plain",
                      body := [.raw "ok"] } }).map (fun r => r.Writer) =
      some { status := 200, written := true, contentType := some "text/plain",
             body := [.raw "ok", .json [("status", .int 404), ("error", .str "not found")]] } ∧
    (GinErrorHandlerMiddleware
        (fun c => AbortAndError declineAll c (.highLevel (NewHighLevelError 1000 "big")))
        freshContext).map (fun r => r.Writer) = none := by
  decide

/-- C3, amended: for every request whose error list is non-empty when the rest
of the chain has finished, the middleware classifies the most recently
recorded error, `h = ExtractError(last)`, calls
`AbortWithStatusJSON(h.Code, obj)` where `obj` has exactly the two fields
"status" = `h.Code` and "error" = `h.Message`, and leaves the request
aborted.  When nothing has been written to the response
before and `h.Code` is a status code that `net/http` accepts (100 to 999) and
for which gin writes a body (not 1xx, 204 or 304), the HTTP status becomes
`h.Code` and the body written is that object, so the written status and the
status field of the body are the same integer.  Recording
`NewHighLevelError(404, "not found")` on a fresh response yields HTTP 404 with
the body of fields status 404 and error "not found". -/
theorem middleware_responds_with_classified_error
    (next : Context → Option Context) (c c1 : Context) (g : GinError)
    (hnext : next c = some c1) (hlast : Last c1.Errors = some g) :
    GinErrorHandlerMiddleware next c =
      c1.AbortWithStatusJSON (ExtractError g.toError).Code
        [("status", .int (ExtractError g.toError).Code),
         ("error", .str (ExtractError g.toError).Message)] ∧
    (∀ c2, GinErrorHandlerMiddleware next c = some c2 → c2.IsAborted = true) ∧
    (c1.Writer.written = false →
      checkWriteHeaderCode (ExtractError g.toError).Code = true →
      bodyAllowedForStatus (ExtractError g.toError).Code = true →
      GinErrorHandlerMiddleware next c = some
        { Errors := c1.Errors, index := abortIndex,
          Writer := { status := (ExtractError g.toError).Code, written := true,
                      contentType := some (c1.Writer.contentType.getD jsonContentType),
                      body := c1.Writer.body ++
                        [.json [("status", .int (ExtractError g.toError).Code),
                                ("error", .str (ExtractError g.toError).Message)]] } }) ∧
    (GinErrorHandlerMiddleware
        (fun c0 => AbortAndError declineAll c0 (.highLevel (NewHighLevelError 404 "not found")))
        freshContext).map (fun r => r.Writer) =
      some { status := 404, written := true, contentType := some jsonContentType,
             body := [.json [("status", .int 404), ("error", .str "not found")]] } := by
  have hmw : GinErrorHandlerMiddleware next c =
      c1.AbortWithStatusJSON (ExtractError g.toError).Code
        [("status", .int (ExtractError g.toError).Code),
         ("error", .str (ExtractError g.toError).Message)] := by
    simp [GinErrorHandlerMiddleware, hnext, hlast]
  refine ⟨hmw, ?_, ?_, by decide⟩
  · intro c2 h2
    rw [hmw] at h2
    have := Render_keeps_rest c1.Abort c2 _ _ h2
    simp [Context.IsAborted, this.1, Context.Abort]
  · intro hfresh hcode hbody
    rw [hmw]
    exact Render_unwritten c1.Abort _ _ hfresh hcode hbody

/-- An instance: a handler records a wrapper around `NotFound` on a fresh
context; the response is 404 with the two fields. -/
theorem middleware_responds_with_classified_error_witness :
    GinErrorHandlerMiddleware
        (fun c0 => AbortAndError declineAll c0 (.wrap "load user" none (.highLevel NotFound)))
        freshContext =
      some { Errors := [{ Err := .wrap "load user" none (.highLevel NotFound),
                          ErrType := ErrorTypePrivate, Meta := none }],
             index := abortIndex,
             Writer := { status := 404, written := true, contentType := some jsonContentType,
                         body := [.json [("status", .int 404), ("error", .str "not found")]] } } :=
  (middleware_responds_with_classified_error
    (fun c0 => AbortAndError declineAll c0 (.wrap "load user" none (.highLevel NotFound)))
    freshContext
    { Errors := [{ Err := .wrap "load user" none (.highLevel NotFound),
                   ErrType := ErrorTypePrivate, Meta := none }],
      index := abortIndex, Writer := freshContext.Writer }
    { Err := .wrap "load user" none (.highLevel NotFound),
      ErrType := ErrorTypePrivate, Meta := none }
    rfl rfl).2.2.1 rfl (by decide) (by decide)

/-- C4: for every request whose error list is empty when the rest of the chain
has finished, the middleware writes no body and no status: the context after it
is the context the chain left, with the same response writer (status, header
and body) and the same empty error list, and with the handler index set to the
abort index, so the request is aborted. -/
theorem middleware_passes_through_without_error
    (next : Context → Option Context) (c c1 : Context)
    (hnext : next c = some c1) (hempty : c1.Errors = []) :
    GinErrorHandlerMiddleware next c =
      some { Errors := c1.Errors, index := abortIndex, Writer := c1.Writer } ∧
    (∀ c2, GinErrorHandlerMiddleware next c = some c2 →
      c2.Writer = c1.Writer ∧ c2.Errors = [] ∧ c2.IsAborted = true) := by
  have hmw : GinErrorHandlerMiddleware next c =
      some { Errors := c1.Errors, index := abortIndex, Writer := c1.Writer } := by
    simp [GinErrorHandlerMiddleware, hnext, hempty, Last, Context.Abort]
  refine ⟨hmw, ?_⟩
  intro c2 h2
  rw [hmw, Option.some.injEq] at h2
  subst h2
  simp [hempty, Context.IsAborted]

/-- An instance: the chain writes a 201 response and records nothing; the
response is left as written. -/
theorem middleware_passes_through_without_error_witness :
    (GinErrorHandlerMiddleware
        (fun c0 => some { c0 with Writer := { status := 201, written := true,
                                              contentType := some "text/plain",
                                              body := [.raw "created"] } })
        freshContext).map (fun r => r.Writer) =
      some { status := 201, written := true, contentType := some "text/plain",
             body := [.raw "created"] } :=
  congrArg (Option.map fun r => r.Writer)
    (middleware_passes_through_without_error
      (fun c0 => some { c0 with Writer := { status := 201, written := true,
                                            contentType := some "text/plain",
                                            body := [.raw "created"] } })
      freshContext _ rfl rfl).1

/-- C6, as stated, fails in two ways.  Neither of the two recorded errors
below has a `HighLevelError` value in its wrap chain, and the responses differ,
500 against 404, because the type of the second has a method `As` that sets the
target.  And when a response with status 200 has been written before, the
response to an unclassified error keeps the status 200. -/
theorem unclassified_response_differs :
    (∀ h, GoError.highLevel h ∉ chain (.leaf "disk full" none)) ∧
    (∀ h, GoError.highLevel h ∉
      chain (.leaf "domain error" (some fun _ => (true, NotFound)))) ∧
    (GinErrorHandlerMiddleware (fun c => AbortAndError declineAll c (.leaf "disk full" none))
        freshContext).map (fun r => r.Writer.status) = some 500 ∧
    (GinErrorHandlerMiddleware
        (fun c => AbortAndError declineAll c (.leaf "domain error" (some fun _ => (true, NotFound))))
        freshContext).map (fun r => r.Writer.status) = some 404 ∧
    (GinErrorHandlerMiddleware (fun c => AbortAndError declineAll c (.leaf "disk full" none))
        { Errors := [], index := 0,
          Writer := { status := 200, written := true, contentType := some "text/plain",
                      body := [.raw "ok"] } }).map (fun r => r.Writer.status) = some 200 := by
  refine ⟨by simp [chain], by simp [chain], by decide, by decide, by decide⟩

/-- C6, amended: for every two requests that differ only in the last recorded
error, where neither error has a `HighLevelError` value in its wrap chain nor
a method `As` in its chain that accepts the target, the middleware produces
the identical response and abort state, whatever the text and type of the two
errors; when nothing has been written to the response before, that response is
HTTP 500 with the body of fields status 500 and error "internal server error". -/
theorem unclassified_errors_same_response
    (next1 next2 : Context → Option Context) (c1 c2 : Context)
    (es : List GinError) (g1 g2 : GinError) (i : Int) (w : ResponseWriter)
    (h1 : next1 c1 = some { Errors := es ++ [g1], index := i, Writer := w })
    (h2 : next2 c2 = some { Errors := es ++ [g2], index := i, Writer := w })
    (hq1 : ∀ n ∈ chain g1.toError, quiet n) (hq2 : ∀ n ∈ chain g2.toError, quiet n) :
    (GinErrorHandlerMiddleware next1 c1).map (fun r => (r.index, r.Writer)) =
      (GinErrorHandlerMiddleware next2 c2).map (fun r => (r.index, r.Writer)) ∧
    (w.written = false →
      (GinErrorHandlerMiddleware next1 c1).map (fun r => r.Writer) =
        some { status := 500, written := true,
               contentType := some (w.contentType.getD jsonContentType),
               body := w.body ++
                 [.json [("status", .int 500), ("error", .str "internal server error")]] }) := by
  have e1 : GinErrorHandlerMiddleware next1 c1 =
      Context.AbortWithStatusJSON { Errors := es ++ [g1], index := i, Writer := w } 500
        [("status", .int 500), ("error", .str "internal server error")] := by
    have := (middleware_default_step next1 c1 _ g1 h1 (by simp [Last]) hq1)
    exact this
  have e2 : GinErrorHandlerMiddleware next2 c2 =
      Context.AbortWithStatusJSON { Errors := es ++ [g2], index := i, Writer := w } 500
        [("status", .int 500), ("error", .str "internal server error")] :=
    middleware_default_step next2 c2 _ g2 h2 (by simp [Last]) hq2
  constructor
  · rw [e1, e2]
    simp only [Context.AbortWithStatusJSON, Context.JSON, Context.Abort, Context.Render]
    split
    · cases (writeContentType (w.WriteHeader 500) jsonContentType).WriteHeaderNow <;> simp
    · cases WriteJSON (w.WriteHeader 500) [("status", .int 500),
        ("error", .str "internal server error")] <;> simp
  · intro hfresh
    rw [e1]
    have := Render_unwritten
      (Context.Abort { Errors := es ++ [g1], index := i, Writer := w }) 500
      [("status", .int 500), ("error", .str "internal server error")] hfresh
      (by decide) (by decide)
    simp only [Context.AbortWithStatusJSON, Context.JSON]
    rw [this]
    rfl

/-- An instance: a plain error and a wrapper around a pointer to `NotFound`
get the same response. -/
theorem unclassified_errors_same_response_witness :
    (GinErrorHandlerMiddleware (fun c => AbortAndError declineAll c (.leaf "disk full" none))
        freshContext).map (fun r => (r.index, r.Writer)) =
      (GinErrorHandlerMiddleware
        (fun c => AbortAndError declineAll c (.wrap "query" none (.highLevelPtr NotFound)))
        freshContext).map (fun r => (r.index, r.Writer)) :=
  (unclassified_errors_same_response
    (fun c => AbortAndError declineAll c (.leaf "disk full" none))
    (fun c => AbortAndError declineAll c (.wrap "query" none (.highLevelPtr NotFound)))
    freshContext freshContext []
    { Err := .leaf "disk full" none, ErrType := ErrorTypePrivate, Meta := none }
    { Err := .wrap "query" none (.highLevelPtr NotFound),
      ErrType := ErrorTypePrivate, Meta := none }
    abortIndex freshContext.Writer rfl rfl
    (by simp [GinError.toError, chain, quiet, declines, GoError.isHighLevel,
          GoError.asMethod?])
    (by simp [GinError.toError, chain, quiet, declines, GoError.isHighLevel,
          GoError.asMethod?])).1

/-! ## The recorder `AbortAndError` -/

/-- C9, as stated, fails.  When the error handed to `AbortAndError` wraps a
`*gin.Error`, gin records that inner `*gin.Error` again; and when its type has
a method `As` that accepts the `**gin.Error` target of gin, gin records what
that method stored.  In both cases the most recently recorded entry is neither
the error handed in nor an entry around it. -/
theorem AbortAndError_records_inner_gin_error :
    ((AbortAndError declineAll freshContext
        (.wrap "handler failed" none (.ginError (.leaf "boom" none) 1 none))).map
        (fun r => Last r.Errors) =
      some (some { Err := .leaf "boom" none, ErrType := 1, Meta := none }) ∧
     GoError.leaf "boom" none ≠
       .wrap "handler failed" none (.ginError (.leaf "boom" none) 1 none) ∧
     GinError.toError { Err := .leaf "boom" none, ErrType := 1, Meta := none } ≠
       .wrap "handler failed" none (.ginError (.leaf "boom" none) 1 none)) ∧
    ((AbortAndError
        (fun _ _ => .accepted { Err := .leaf "stored" none, ErrType := 2, Meta := none })
        freshContext (.leaf "via" (some fun t => (false, t)))).map
        (fun r => Last r.Errors) =
      some (some { Err := .leaf "stored" none, ErrType := 2, Meta := none }) ∧
     GoError.leaf "stored" none ≠ .leaf "via" (some fun t => (false, t)) ∧
     GinError.toError { Err := .leaf "stored" none, ErrType := 2, Meta := none } ≠
       .leaf "via" (some fun t => (false, t))) := by
  refine ⟨⟨rfl, ?_, ?_⟩, ⟨rfl, ?_, ?_⟩⟩
  · intro h; cases h
  · intro h; cases h
  · intro h; simp at h
  · intro h; cases h

/-- C9, amended: for every request context and every non-nil error value `e`
(a finite error whose methods return), `AbortAndError(c, e)` appends exactly
one entry at the end of the error list, keeping the earlier entries in place
and order, sets the handler index to the abort index, and changes nothing
else: the response writer is untouched.  The entry appended is then the most
recently recorded one.  Provided no error of the wrap chain of `e` has a
method `As` that accepts the `**gin.Error` target of gin, that entry is the
first `*gin.Error` of the chain if the chain has one, and otherwise a new
private entry whose `Err` is `e`. -/
theorem AbortAndError_appends_and_aborts (ginAs : GinAsTable) (c : Context) (e : GoError)
    (hne : e ≠ .nil) :
    AbortAndError ginAs c e =
      some { Errors := c.Errors ++ [parsedError ginAs e], index := abortIndex,
             Writer := c.Writer } ∧
    (∀ c2, AbortAndError ginAs c e = some c2 →
      Last c2.Errors = some (parsedError ginAs e) ∧ c2.IsAborted = true ∧
      c2.Writer = c.Writer) ∧
    ((∀ n ∈ chain e, ginDeclines ginAs n) →
      parsedError ginAs e =
        ((chain e).findSome? GoError.ginError?).getD
          { Err := e, ErrType := ErrorTypePrivate, Meta := none }) ∧
    ((∀ n ∈ chain e, ginDeclines ginAs n) → (∀ n ∈ chain e, n.ginError? = none) →
      parsedError ginAs e = { Err := e, ErrType := ErrorTypePrivate, Meta := none }) := by
  have hab : AbortAndError ginAs c e =
      some { Errors := c.Errors ++ [parsedError ginAs e], index := abortIndex,
             Writer := c.Writer } := by
    cases e with
    | nil => exact absurd rfl hne
    | _ => rfl
  refine ⟨hab, ?_, parsedError_of_declined ginAs e, ?_⟩
  · intro c2 h2
    rw [hab, Option.some.injEq] at h2
    subst h2
    simp [Last, Context.IsAborted]
  · intro hdecl hnone
    rw [parsedError_of_declined ginAs e hdecl]
    have : (chain e).findSome? GoError.ginError? = none := by
      rw [List.findSome?_eq_none_iff]
      exact hnone
    rw [this]
    rfl

/-- An instance: a wrapper around `NotFound`, whose method `As` declines, is
recorded after an earlier entry as a new private entry around it. -/
theorem AbortAndError_appends_and_aborts_witness :
    GoError.wrap "lookup" (some fun t => (false, t)) (.highLevel NotFound) ≠ .nil ∧
    AbortAndError declineAll
        { Errors := [{ Err := .leaf "first" none, ErrType := ErrorTypePrivate, Meta := none }],
          index := 2, Writer := freshContext.Writer }
        (.wrap "lookup" (some fun t => (false, t)) (.highLevel NotFound)) =
      some { Errors := [{ Err := .leaf "first" none, ErrType := ErrorTypePrivate, Meta := none }]
               ++ [parsedError declineAll
                    (.wrap "lookup" (some fun t => (false, t)) (.highLevel NotFound))],
             index := abortIndex, Writer := freshContext.Writer } ∧
    parsedError declineAll (.wrap "lookup" (some fun t => (false, t)) (.highLevel NotFound)) =
      { Err := .wrap "lookup" (some fun t => (false, t)) (.highLevel NotFound),
        ErrType := ErrorTypePrivate, Meta := none } :=
  ⟨(by intro h; cases h),
   (AbortAndError_appends_and_aborts declineAll _ _ (by intro h; cases h)).1,
   (AbortAndError_appends_and_aborts declineAll freshContext _ (by intro h; cases h)).2.2.2
     (fun n _ => declineAll_ginDeclines n)
     (by simp [chain, GoError.ginError?])⟩

end Ginerr
